import Mathlib

/-!
Shallow embedding of the `whisper-real-time` streaming voice-activity
pipeline (files `src/main.rs`, `src/vad.rs`, `src/whisper.rs`) and proofs
about the claims of its specification.

Machine integers (`usize`, `u64`) are modelled as `Nat`; none of the
arithmetic in the modelled code can overflow a 64-bit integer at the
reachable values, and Rust `usize` subtraction either cannot underflow at
the reachable values or is an explicit `saturating_sub` (which is exactly
`Nat` truncated subtraction).  Audio samples (`i16`/`f32`) are modelled as
`Int` — only their identity and count matter to the claims.  Rust `panic!`
is modelled by `Option`/an explicit flag.
-/

namespace WhisperRT

/-- whisper.rs: `pub const SAMPLE_RATE: usize = 16000` (main.rs repeats the
same constant). -/
def SAMPLE_RATE : Nat := 16000

/-- whisper.rs: `const WHISPER_PREPEND_SILENCE: usize = 1600 * 7` — 700 ms
of silence prepended to each whisper frame. -/
def WHISPER_PREPEND_SILENCE : Nat := 1600 * 7

/-- whisper.rs: `pub const MAX_WHISPER_FRAME: usize = (SAMPLE_RATE * 30) -
WHISPER_PREPEND_SILENCE`. -/
def MAX_WHISPER_FRAME : Nat := SAMPLE_RATE * 30 - WHISPER_PREPEND_SILENCE

/-- vad.rs: `pub const VAD_FRAME: usize = 480` — samples per classification
frame (~30 ms). -/
def VAD_FRAME : Nat := 480

/-- A bounded SPSC ring buffer holding `i16` samples, as used for the
transcription audio ring (`ringbuf::LocalRb`).  `data` is the occupied
content in push order, `cap` the fixed capacity. -/
structure Rb where
  cap : Nat
  data : List Int
  deriving DecidableEq

/-- ringbuf `Producer::push_slice`: appends as many items from the slice as
fit in the vacant space and returns how many were actually pushed. -/
def Rb.push_slice (r : Rb) (xs : List Int) : Rb × Nat :=
  let n := min (r.cap - r.data.length) xs.length
  (⟨r.cap, r.data ++ xs.take n⟩, n)

/-- vad.rs: `pub enum VadActivity { SpeechStart, SpeechEnd(NSamples) }`. -/
inductive VadActivity where
  | speechStart : VadActivity
  | speechEnd : Nat → VadActivity
  deriving DecidableEq

/-- One observable producer-side action of `Vad::output_to`, in execution
order: a `push_slice` of `n` samples onto the transcription ring, or an
endpointing event handed to the caller (which `audio_loop` immediately
sends over the channel).  The trace order is the code's execution order, so
a push listed before an event happened before that event was sent. -/
inductive Op where
  | push : Nat → Op
  | event : VadActivity → Op
  deriving DecidableEq

/-- vad.rs `struct Vad`, endpointer bookkeeping only (the black-box
classifier and the staging ring are factored out: the classifier's verdict
arrives as a `Bool` per frame, and frames arrive already regrouped to
`VAD_FRAME` samples). -/
structure VadState where
  current_frame : Nat
  last_speech_frame : Option Nat
  current_speech_samples : Nat
  deriving DecidableEq

/-- vad.rs `Vad::try_new`: `current_frame: 0, last_speech_frame: None,
current_speech_samples: 0`. -/
def vadInit : VadState := ⟨0, none, 0⟩

/-- vad.rs `Vad::output_to`, body of the per-frame loop (lines 79–134):
consumes one classification frame `f` with classifier verdict `b`, updates
the endpointer state and the transcription ring, and returns the trace of
pushes/events this frame produced (in execution order). -/
def outputToFrame (s : VadState) (r : Rb) (b : Bool) (f : List Int) :
    VadState × Rb × List Op :=
  match s.last_speech_frame with
  | none =>
    -- we are inside a silence window
    if b = false then (s, r, [])
    else
      -- speech just started; current_frame resets, the delivered push count
      -- seeds current_speech_samples
      (⟨0, some 0, (r.push_slice f).2⟩, (r.push_slice f).1,
       [.push (r.push_slice f).2, .event .speechStart])
  | some lsf =>
    -- we are inside a speech window; silence_frames = current_frame + 1 - lsf
    if b = false ∧ 8 ≤ s.current_frame + 1 - lsf then
      -- silence for 240ms: stop listening
      (⟨s.current_frame + 1, none, s.current_speech_samples⟩, r,
       [.event (.speechEnd s.current_speech_samples)])
    else
      if b = true ∨ s.current_frame + 1 - lsf ≤ 3 then
        -- speech, or silence ≤ 90ms: record audio
        (⟨s.current_frame + 1,
          some (if b then s.current_frame + 1 else lsf),
          s.current_speech_samples + (r.push_slice f).2⟩,
         (r.push_slice f).1, [.push (r.push_slice f).2])
      else
        (⟨s.current_frame + 1,
          some (if b then s.current_frame + 1 else lsf),
          s.current_speech_samples⟩, r, [])

/-- Runs the endpointer over a sequence of classified frames, concatenating
the per-frame traces.  This is the composition of the `Vad::output_to` /
`audio_loop` polling loop over an input stream: each frame is processed
exactly once, in arrival order, and every event `output_to` returns is sent
on the channel before the next frame is examined. -/
def outputToRun (s : VadState) (r : Rb) :
    List (Bool × List Int) → VadState × Rb × List Op
  | [] => (s, r, [])
  | (b, f) :: rest =>
    let p := outputToFrame s r b f
    let q := outputToRun p.1 p.2.1 rest
    (q.1, q.2.1, p.2.2 ++ q.2.2)

/-- Projects the event stream (what is sent over the `VadActivity` channel)
out of a producer trace. -/
def traceEvents (t : List Op) : List VadActivity :=
  t.filterMap fun op =>
    match op with
    | .push _ => none
    | .event e => some e

/-- Strict alternation checker: with `opened = false` the next event must
be `SpeechStart`, with `opened = true` it must be `SpeechEnd`;
`altFrom false es = true` says `es` is `Start, End, Start, End, …`. -/
def altFrom : Bool → List VadActivity → Bool
  | _, [] => true
  | false, .speechStart :: rest => altFrom true rest
  | true, .speechEnd _ :: rest => altFrom false rest
  | _, _ => false

/-- Sample-accounting checker over a producer trace.  State: `opened`
(a speech window is open) and `w` (samples pushed to the transcription ring
for the current window, including the push that immediately precedes its
`SpeechStart`).  Every `SpeechEnd n` must report exactly the samples pushed
since the previous window closed, and the pushes it counts all appear
before it in the trace (= were executed before the event was sent). -/
def checkOps : Bool → Nat → List Op → Bool
  | _, _, [] => true
  | false, w, .push k :: rest => checkOps false (w + k) rest
  | false, w, .event .speechStart :: rest => checkOps true w rest
  | false, _, .event (.speechEnd _) :: _ => false
  | true, w, .push k :: rest => checkOps true (w + k) rest
  | true, w, .event (.speechEnd n) :: rest => n == w && checkOps false 0 rest
  | true, _, .event .speechStart :: _ => false

/-! ## main.rs: the standalone microphone receive loop (`fn whisper`) -/

/-- main.rs: `let mut accumulator = [0i16; SAMPLE_RATE * 30]` — length of
the 30-second utterance accumulator (`accumulator.len()`). -/
def ACCUMULATOR_LEN : Nat := SAMPLE_RATE * 30

/-- main.rs: `const HEAD_ZERO: usize = 1600 * 7` — 700 ms pre-roll of
silence at the front of the accumulator. -/
def HEAD_ZERO : Nat := 1600 * 7

/-- State of the `fn whisper` microphone receive loop in main.rs (lines
102–180): the accumulator array (as a total function from index to sample;
indices ≥ `ACCUMULATOR_LEN` are never written or read), the write head,
the `speech_segment`/`segment` bookkeeping, the lengths of the buffers
handed to `dispatch` so far, and whether
`panic!("should not be reachable")` was hit (after which the process is
dead; steps on a panicked state return it unchanged). -/
structure MicState where
  accumulator : Nat → Int
  head : Nat
  speech_segment : Option Nat
  segment : Nat
  dispatched : List Nat
  panicked : Bool

/-- Writes `data` into the array `f` starting at index `pos`
(`accumulator[pos..pos+data.len()].copy_from_slice(data)`). -/
def writeSlice (f : Nat → Int) (pos : Nat) (data : List Int) : Nat → Int :=
  fun i => if pos ≤ i ∧ i < pos + data.length then data.getD (i - pos) 0 else f i

/-- main.rs `dispatch` closure (lines 109–124): transcribes
`accumulator[..head]` (recorded here as the dispatched length), then
`accumulator.fill(0)`, `head = HEAD_ZERO`, `speech_segment = None`,
`segment = 0`. -/
def micDispatch (s : MicState) : MicState :=
  { s with dispatched := s.dispatched ++ [s.head],
           accumulator := fun _ => 0,
           head := HEAD_ZERO,
           speech_segment := none,
           segment := 0 }

/-- The value of `segment` after the top-of-loop
`if speech_segment.is_some() { segment += 1; }` (main.rs lines 127–129). -/
def segAfter (s : MicState) : Nat :=
  if s.speech_segment.isSome then s.segment + 1 else s.segment

/-- Whether control reaches the append section (main.rs line 150 onward):
either the frame was classified speech, or we are within the 3-frame
linger window (`speech_segment.is_some_and(|last| segment - last <= 3)`)
of the `!predict` branch, which falls through. -/
def appendPhase (s : MicState) (predict : Bool) : Bool :=
  predict ||
    (match s.speech_segment with
     | some last => decide (segAfter s - last ≤ 3)
     | none => false)

/-- One iteration of the `while let Ok(partial) = rx.recv()` loop in
main.rs `fn whisper` (lines 126–180), for a received 480-sample frame
`part` whose VAD classification is `predict`. -/
def micStep (s : MicState) (predict : Bool) (part : List Int) : MicState :=
  if s.panicked then s
  else
    let s1 : MicState := { s with segment := segAfter s }
    if appendPhase s predict then
      let s2 := if predict then { s1 with speech_segment := some s1.segment } else s1
      if s2.head < ACCUMULATOR_LEN then
        -- overflow is `saturating_sub`, max is an exact usize subtraction
        let ov := s2.head + part.length - ACCUMULATOR_LEN
        let mx := part.length - ov
        let used := part.take mx
        let leftover := part.drop mx
        let s3 := { s2 with accumulator := writeSlice s2.accumulator s2.head used,
                            head := s2.head + mx }
        if mx < part.length then
          let s4 := micDispatch s3
          { s4 with accumulator := writeSlice s4.accumulator HEAD_ZERO leftover,
                    head := HEAD_ZERO + leftover.length,
                    speech_segment := some s4.segment }
        else s3
      else { s2 with panicked := true }
    else
      match s1.speech_segment with
      | some last =>
        if predict = false ∧ 8 < s1.segment - last then micDispatch s1 else s1
      | none => s1

/-- Runs the main.rs receive loop over a sequence of classified frames. -/
def micRun (s : MicState) : List (Bool × List Int) → MicState
  | [] => s
  | (b, f) :: rest => micRun (micStep s b f) rest

/-- Initial state of the main.rs loop: zeroed accumulator,
`head = HEAD_ZERO`, `speech_segment = None`, `segment = 0`. -/
def micInit : MicState :=
  ⟨fun _ => 0, HEAD_ZERO, none, 0, [], false⟩

/-- A 480-sample (silent) VAD frame, as delivered by the audio callback. -/
def frame480 : List Int := List.replicate VAD_FRAME 0

/-- Head-only abstraction of a speech-classified `micStep`: `none` means
the panic branch is reached, `some h` the new write head. -/
def headT (h : Nat) : Option Nat :=
  if h < ACCUMULATOR_LEN then
    if h + VAD_FRAME ≤ ACCUMULATOR_LEN then some (h + VAD_FRAME)
    else some (HEAD_ZERO + (h + VAD_FRAME - ACCUMULATOR_LEN))
  else none

/-- Iterates `headT` `n` times. -/
def headRunN : Nat → Nat → Option Nat
  | 0, h => some h
  | n + 1, h =>
    match headT h with
    | none => none
    | some h2 => headRunN n h2

/-! ## whisper.rs: the in-process transcription consumer -/

/-- whisper.rs `struct Whisper`, the parts the claims are about: the sample
buffer `buf: Box<[i16; WHISPER_PREPEND_SILENCE + MAX_WHISPER_FRAME]>`
(modelled as a total function from index to sample) and `samples_in_buf`.
The whisper.cpp context/params are external collaborators and are passed to
`transcribe` as an abstract engine function. -/
structure WhisperM where
  buf : Nat → Int
  samples_in_buf : Nat

/-- whisper.rs `Whisper::with_options` buffer initialisation:
`buf: Box::new([0i16; ...])`, `samples_in_buf: 0`. -/
def whisperInit : WhisperM := ⟨fun _ => 0, 0⟩

/-- whisper.rs `Whisper::audio_buf` (lines 79–83):
`assert!(sample_count < MAX_WHISPER_FRAME)` — a failed assertion panics,
modelled as `none`.  On success it records `samples_in_buf = sample_count`
and hands out the index range
`[WHISPER_PREPEND_SILENCE, WHISPER_PREPEND_SILENCE + sample_count)` of the
internal buffer for the caller to fill. -/
def audio_buf (w : WhisperM) (sample_count : Nat) :
    Option (WhisperM × Nat × Nat) :=
  if sample_count < MAX_WHISPER_FRAME then
    some ({ w with samples_in_buf := sample_count },
      WHISPER_PREPEND_SILENCE, WHISPER_PREPEND_SILENCE + sample_count)
  else none

/-- Rust `u8::to_ascii_lowercase` on a character: ASCII uppercase letters
are shifted to lowercase, everything else is unchanged. -/
def asciiLower (c : Char) : Char :=
  if 65 ≤ c.toNat ∧ c.toNat ≤ 90 then Char.ofNat (c.toNat + 32) else c

/-- Rust `str::eq_ignore_ascii_case`; Rust strings are modelled as
`List Char`. -/
def eq_ignore_ascii_case (a b : List Char) : Bool :=
  a.map asciiLower == b.map asciiLower

/-- The hallucination filter literal `" you"` of whisper.rs line 120. -/
def youText : List Char := [' ', 'y', 'o', 'u']

/-- whisper.rs `Whisper::transcribe` (lines 86–126).  The whisper.cpp model
(`full` + segment retrieval) is an external collaborator, abstracted as
`engine`: it consumes the i16 sample buffer
`buf[0 .. WHISPER_PREPEND_SILENCE + samples_in_buf]` (the float conversion
is part of the collaborator) and returns one `Option (List Char)` per
segment (`full_get_segment_text(i).ok()`).  Returns the transcription
result together with whether the engine was invoked at all.

Control flow of the source: if `samples_in_buf <
SAMPLE_RATE - WHISPER_PREPEND_SILENCE`, return `None` without running the
model; otherwise run the model, return `None` on zero segments, else take
segment 0 (extra segments are only warned about) and suppress text equal to
`" you"` ignoring ASCII case. -/
def transcribe (engine : List Int → List (Option (List Char)))
    (w : WhisperM) : Option (List Char) × Bool :=
  if w.samples_in_buf < SAMPLE_RATE - WHISPER_PREPEND_SILENCE then
    (none, false)
  else
    let samples :=
      (List.range (WHISPER_PREPEND_SILENCE + w.samples_in_buf)).map w.buf
    match engine samples with
    | [] => (none, true)
    | seg0 :: _ =>
      (seg0.bind fun text =>
        if eq_ignore_ascii_case text youText then none else some text,
       true)

/-! ## vad.rs `audio_loop`: the format-normalizer stage -/

/-- vad.rs `audio_loop` lines 150–159: the channel match (mono passes
through, stereo is downmixed by the external `stereo_to_mono`, more than
two channels panics — modelled as `none`; configuration rejects it
earlier) followed by the resampler match (`None` passes through, a bound
resampler processes the chunk).  The element type and the two collaborator
functions are parameters: nothing in these two matches inspects sample
values. -/
def normalizeStage {α : Type} (stereoToMono : List α → List α)
    (resampler : Option (List α → List α)) (channels : Nat)
    (data : List α) : Option (List α) :=
  let mono :=
    match channels with
    | 1 => some data
    | 2 => some (stereoToMono data)
    | _ => none
  mono.map fun d =>
    match resampler with
    | none => d
    | some f => f d

/-- vad.rs `audio_loop` line 160 + 162: the normalized chunk is converted
to i16 by the external `wav_io::convert_samples_f32_to_i16` (abstracted as
`conv`) and the result is what `vad.input(&data)` receives. -/
def vadInputSamples {α : Type} (stereoToMono : List α → List α)
    (resampler : Option (List α → List α)) (conv : List α → List Int)
    (channels : Nat) (data : List α) : Option (List Int) :=
  (normalizeStage stereoToMono resampler channels data).map conv

/-! ## Helper lemmas -/

theorem frame480_length : frame480.length = VAD_FRAME := by
  simp [frame480]

theorem traceEvents_append (t₁ t₂ : List Op) :
    traceEvents (t₁ ++ t₂) = traceEvents t₁ ++ traceEvents t₂ := by
  simp [traceEvents, List.filterMap_append]

theorem traceEvents_nil : traceEvents [] = [] := rfl

theorem traceEvents_push_cons (n : Nat) (t : List Op) :
    traceEvents (.push n :: t) = traceEvents t := rfl

theorem traceEvents_event_cons (e : VadActivity) (t : List Op) :
    traceEvents (.event e :: t) = e :: traceEvents t := rfl

/-! ### Per-branch evaluation lemmas for `outputToFrame` -/

theorem outputToFrame_idle_silence (c v : Nat) (r : Rb) (f : List Int) :
    outputToFrame ⟨c, none, v⟩ r false f = (⟨c, none, v⟩, r, []) := rfl

theorem outputToFrame_idle_speech (c v : Nat) (r : Rb) (f : List Int) :
    outputToFrame ⟨c, none, v⟩ r true f =
      (⟨0, some 0, (r.push_slice f).2⟩, (r.push_slice f).1,
       [.push (r.push_slice f).2, .event .speechStart]) := rfl

theorem outputToFrame_end_frame (c lsf v : Nat) (r : Rb) (f : List Int)
    (h8 : 8 ≤ c + 1 - lsf) :
    outputToFrame ⟨c, some lsf, v⟩ r false f =
      (⟨c + 1, none, v⟩, r, [.event (.speechEnd v)]) := by
  simp only [outputToFrame]
  rw [if_pos ⟨by trivial, h8⟩]

theorem outputToFrame_record_speech (c lsf v : Nat) (r : Rb) (f : List Int) :
    outputToFrame ⟨c, some lsf, v⟩ r true f =
      (⟨c + 1, some (c + 1), v + (r.push_slice f).2⟩,
       (r.push_slice f).1, [.push (r.push_slice f).2]) := by
  simp only [outputToFrame]
  rw [if_neg (by simp), if_pos (Or.inl (by trivial))]
  simp

theorem outputToFrame_record_linger (c lsf v : Nat) (r : Rb) (f : List Int)
    (h3 : c + 1 - lsf ≤ 3) :
    outputToFrame ⟨c, some lsf, v⟩ r false f =
      (⟨c + 1, some lsf, v + (r.push_slice f).2⟩,
       (r.push_slice f).1, [.push (r.push_slice f).2]) := by
  simp only [outputToFrame]
  rw [if_neg (by rintro ⟨-, h⟩; omega), if_pos (Or.inr h3)]
  simp

theorem outputToFrame_dead_zone (c lsf v : Nat) (r : Rb) (f : List Int)
    (h3 : 3 < c + 1 - lsf) (h8 : c + 1 - lsf < 8) :
    outputToFrame ⟨c, some lsf, v⟩ r false f =
      (⟨c + 1, some lsf, v⟩, r, []) := by
  simp only [outputToFrame]
  rw [if_neg (by rintro ⟨-, h⟩; omega),
    if_neg (by rintro (h | h) <;> [exact absurd h (by simp); omega])]
  simp

/-- Evaluation of `push_slice` when the whole slice fits. -/
theorem push_slice_full (r : Rb) (f : List Int)
    (h : r.data.length + f.length ≤ r.cap) :
    r.push_slice f = (⟨r.cap, r.data ++ f⟩, f.length) := by
  simp only [Rb.push_slice]
  rw [min_eq_right (by omega), List.take_length]

/-- Unfolds one input frame of a run against a computed step. -/
theorem outputToRun_cons_eq (s s₂ : VadState) (r r₂ : Rb) (b : Bool)
    (f : List Int) (t : List Op) (rest : List (Bool × List Int))
    (hstep : outputToFrame s r b f = (s₂, r₂, t)) :
    outputToRun s r ((b, f) :: rest) =
      ((outputToRun s₂ r₂ rest).1, (outputToRun s₂ r₂ rest).2.1,
       t ++ (outputToRun s₂ r₂ rest).2.2) := by
  simp only [outputToRun, hstep]

/-- A run over concatenated inputs is the composition of the two runs. -/
theorem outputToRun_append (xs ys : List (Bool × List Int)) :
    ∀ (s : VadState) (r : Rb),
      outputToRun s r (xs ++ ys) =
        ((outputToRun (outputToRun s r xs).1 (outputToRun s r xs).2.1 ys).1,
         (outputToRun (outputToRun s r xs).1 (outputToRun s r xs).2.1 ys).2.1,
         (outputToRun s r xs).2.2 ++
           (outputToRun (outputToRun s r xs).1
             (outputToRun s r xs).2.1 ys).2.2) := by
  induction xs with
  | nil => intro s r; simp [outputToRun]
  | cons x rest ih =>
    intro s r
    obtain ⟨b, f⟩ := x
    simp only [List.cons_append, outputToRun, List.append_eq]
    rw [ih]
    simp [List.append_assoc]

/-- In the idle state, silence frames are discarded without any action. -/
theorem outputToRun_idle (j c v : Nat) :
    ∀ r : Rb,
      outputToRun ⟨c, none, v⟩ r (List.replicate j (false, frame480)) =
        (⟨c, none, v⟩, r, []) := by
  induction j with
  | zero => intro r; rfl
  | succ j ih =>
    intro r
    rw [List.replicate_succ,
      outputToRun_cons_eq _ _ _ _ _ _ _ _ (outputToFrame_idle_silence c v r
        frame480), ih r]
    rfl

/-- A run of `j` speech frames inside an open window appends `j` full
frames to the ring and extends the window, with no events. -/
theorem outputToRun_speech_run (j : Nat) :
    ∀ (c v : Nat) (r : Rb), r.data.length + VAD_FRAME * j ≤ r.cap →
      outputToRun ⟨c, some c, v⟩ r (List.replicate j (true, frame480)) =
        (⟨c + j, some (c + j), v + VAD_FRAME * j⟩,
         ⟨r.cap, r.data ++ List.replicate (VAD_FRAME * j) 0⟩,
         List.replicate j (.push VAD_FRAME)) := by
  have hV : VAD_FRAME = 480 := rfl
  induction j with
  | zero =>
    intro c v r _
    simp [outputToRun]
  | succ j ih =>
    intro c v r hcap
    rw [hV] at hcap
    have hfit : r.data.length + frame480.length ≤ r.cap := by
      rw [frame480_length, hV]
      omega
    have hstep : outputToFrame ⟨c, some c, v⟩ r true frame480 =
        (⟨c + 1, some (c + 1), v + VAD_FRAME⟩, ⟨r.cap, r.data ++ frame480⟩,
         [.push VAD_FRAME]) := by
      rw [outputToFrame_record_speech, push_slice_full r frame480 hfit]
      simp [frame480_length]
    rw [List.replicate_succ, outputToRun_cons_eq _ _ _ _ _ _ _ _ hstep,
      ih (c + 1) (v + VAD_FRAME) ⟨r.cap, r.data ++ frame480⟩
        (by simp [frame480_length, hV]; omega)]
    have h1 : c + 1 + j = c + (j + 1) := by omega
    have h2 : v + VAD_FRAME + VAD_FRAME * j = v + VAD_FRAME * (j + 1) := by
      rw [hV]; ring
    have h3 : (r.data ++ frame480) ++ List.replicate (VAD_FRAME * j) 0 =
        r.data ++ List.replicate (VAD_FRAME * (j + 1)) 0 := by
      rw [List.append_assoc]
      have : frame480 ++ List.replicate (VAD_FRAME * j) 0 =
          List.replicate (VAD_FRAME * (j + 1)) 0 := by
        rw [show frame480 = List.replicate VAD_FRAME 0 from rfl,
          ← List.replicate_add]
        rw [show VAD_FRAME + VAD_FRAME * j = VAD_FRAME * (j + 1) from by
          rw [hV]; ring]
      rw [this]
    rw [h1, h2, h3]
    simp [List.replicate_succ]

/-- Eight consecutive silence frames inside an open window: three linger
frames are recorded, four dead-zone frames are discarded, the eighth frame
ends the utterance reporting the accumulated count. -/
theorem outputToRun_silence8 (c v : Nat) (r : Rb)
    (hcap : r.data.length + VAD_FRAME * 3 ≤ r.cap) :
    outputToRun ⟨c, some c, v⟩ r (List.replicate 8 (false, frame480)) =
      (⟨c + 8, none, v + VAD_FRAME * 3⟩,
       ⟨r.cap, r.data ++ List.replicate (VAD_FRAME * 3) 0⟩,
       [.push VAD_FRAME, .push VAD_FRAME, .push VAD_FRAME,
        .event (.speechEnd (v + VAD_FRAME * 3))]) := by
  have hV : VAD_FRAME = 480 := rfl
  have hlen : frame480.length = VAD_FRAME := frame480_length
  rw [hV] at hcap
  have step1 : outputToFrame ⟨c, some c, v⟩ r false frame480 =
      (⟨c + 1, some c, v + VAD_FRAME⟩, ⟨r.cap, r.data ++ frame480⟩,
       [.push VAD_FRAME]) := by
    rw [outputToFrame_record_linger c c v r frame480 (by omega),
      push_slice_full r frame480 (by rw [hlen, hV]; omega)]
    simp [hlen]
  have step2 : outputToFrame ⟨c + 1, some c, v + VAD_FRAME⟩
      ⟨r.cap, r.data ++ frame480⟩ false frame480 =
      (⟨c + 2, some c, v + VAD_FRAME * 2⟩,
       ⟨r.cap, (r.data ++ frame480) ++ frame480⟩, [.push VAD_FRAME]) := by
    rw [outputToFrame_record_linger (c + 1) c (v + VAD_FRAME) _ frame480
        (by omega),
      push_slice_full _ frame480 (by simp [hlen, hV]; omega)]
    simp only [hlen]
    try rw [show c + 1 + 1 = c + 2 from by omega]
    try rw [show v + VAD_FRAME + VAD_FRAME = v + VAD_FRAME * 2 from by omega]
  have step3 : outputToFrame ⟨c + 2, some c, v + VAD_FRAME * 2⟩
      ⟨r.cap, (r.data ++ frame480) ++ frame480⟩ false frame480 =
      (⟨c + 3, some c, v + VAD_FRAME * 3⟩,
       ⟨r.cap, ((r.data ++ frame480) ++ frame480) ++ frame480⟩,
       [.push VAD_FRAME]) := by
    rw [outputToFrame_record_linger (c + 2) c (v + VAD_FRAME * 2) _ frame480
        (by omega),
      push_slice_full _ frame480 (by simp [hlen, hV]; omega)]
    simp only [hlen]
    try rw [show c + 2 + 1 = c + 3 from by omega]
    try rw [show v + VAD_FRAME * 2 + VAD_FRAME = v + VAD_FRAME * 3 from by
      omega]
  have step4 : outputToFrame ⟨c + 3, some c, v + VAD_FRAME * 3⟩
      ⟨r.cap, ((r.data ++ frame480) ++ frame480) ++ frame480⟩ false frame480 =
      (⟨c + 4, some c, v + VAD_FRAME * 3⟩,
       ⟨r.cap, ((r.data ++ frame480) ++ frame480) ++ frame480⟩, []) := by
    rw [outputToFrame_dead_zone (c + 3) c (v + VAD_FRAME * 3) _ frame480
      (by omega) (by omega)]
  have step5 : outputToFrame ⟨c + 4, some c, v + VAD_FRAME * 3⟩
      ⟨r.cap, ((r.data ++ frame480) ++ frame480) ++ frame480⟩ false frame480 =
      (⟨c + 5, some c, v + VAD_FRAME * 3⟩,
       ⟨r.cap, ((r.data ++ frame480) ++ frame480) ++ frame480⟩, []) := by
    rw [outputToFrame_dead_zone (c + 4) c (v + VAD_FRAME * 3) _ frame480
      (by omega) (by omega)]
  have step6 : outputToFrame ⟨c + 5, some c, v + VAD_FRAME * 3⟩
      ⟨r.cap, ((r.data ++ frame480) ++ frame480) ++ frame480⟩ false frame480 =
      (⟨c + 6, some c, v + VAD_FRAME * 3⟩,
       ⟨r.cap, ((r.data ++ frame480) ++ frame480) ++ frame480⟩, []) := by
    rw [outputToFrame_dead_zone (c + 5) c (v + VAD_FRAME * 3) _ frame480
      (by omega) (by omega)]
  have step7 : outputToFrame ⟨c + 6, some c, v + VAD_FRAME * 3⟩
      ⟨r.cap, ((r.data ++ frame480) ++ frame480) ++ frame480⟩ false frame480 =
      (⟨c + 7, some c, v + VAD_FRAME * 3⟩,
       ⟨r.cap, ((r.data ++ frame480) ++ frame480) ++ frame480⟩, []) := by
    rw [outputToFrame_dead_zone (c + 6) c (v + VAD_FRAME * 3) _ frame480
      (by omega) (by omega)]
  have step8 : outputToFrame ⟨c + 7, some c, v + VAD_FRAME * 3⟩
      ⟨r.cap, ((r.data ++ frame480) ++ frame480) ++ frame480⟩ false frame480 =
      (⟨c + 8, none, v + VAD_FRAME * 3⟩,
       ⟨r.cap, ((r.data ++ frame480) ++ frame480) ++ frame480⟩,
       [.event (.speechEnd (v + VAD_FRAME * 3))]) := by
    rw [outputToFrame_end_frame (c + 7) c (v + VAD_FRAME * 3) _ frame480
      (by omega)]
  rw [show (List.replicate 8 ((false : Bool), frame480)) =
      (false, frame480) :: (false, frame480) :: (false, frame480) ::
      (false, frame480) :: (false, frame480) :: (false, frame480) ::
      (false, frame480) :: (false, frame480) :: [] from rfl]
  rw [outputToRun_cons_eq _ _ _ _ _ _ _ _ step1,
    outputToRun_cons_eq _ _ _ _ _ _ _ _ step2,
    outputToRun_cons_eq _ _ _ _ _ _ _ _ step3,
    outputToRun_cons_eq _ _ _ _ _ _ _ _ step4,
    outputToRun_cons_eq _ _ _ _ _ _ _ _ step5,
    outputToRun_cons_eq _ _ _ _ _ _ _ _ step6,
    outputToRun_cons_eq _ _ _ _ _ _ _ _ step7,
    outputToRun_cons_eq _ _ _ _ _ _ _ _ step8]
  simp only [outputToRun, List.append_nil, List.cons_append, List.nil_append,
    Prod.mk.injEq]
  refine ⟨by trivial, ?_, by trivial⟩
  rw [List.append_assoc, List.append_assoc,
    show frame480 ++ (frame480 ++ frame480) =
      List.replicate (VAD_FRAME * 3) 0 from by
    rw [show frame480 = List.replicate VAD_FRAME 0 from rfl,
      ← List.replicate_add, ← List.replicate_add]
    rw [show VAD_FRAME + (VAD_FRAME + VAD_FRAME) = VAD_FRAME * 3 from by
      rw [hV]]]

/-- Invariant: from any endpointer state, the event stream of a run
alternates according to whether a speech window is currently open. -/
theorem altFrom_outputToRun (inputs : List (Bool × List Int)) :
    ∀ (s : VadState) (r : Rb),
      altFrom s.last_speech_frame.isSome
        (traceEvents (outputToRun s r inputs).2.2) = true := by
  induction inputs with
  | nil =>
    intro s r
    simp [outputToRun, traceEvents, altFrom]
  | cons bf rest ih =>
    obtain ⟨b, f⟩ := bf
    intro s r
    obtain ⟨c, ls, v⟩ := s
    simp only [outputToRun]
    rcases ls with _ | lsf
    · cases b
      · rw [outputToFrame_idle_silence]
        simpa using ih ⟨c, none, v⟩ r
      · rw [outputToFrame_idle_speech]
        simpa [traceEvents_push_cons, traceEvents_event_cons, altFrom]
          using ih ⟨0, some 0, (r.push_slice f).2⟩ (r.push_slice f).1
    · cases b
      · by_cases h8 : 8 ≤ c + 1 - lsf
        · rw [outputToFrame_end_frame c lsf v r f h8]
          simpa [traceEvents_event_cons, altFrom] using ih ⟨c + 1, none, v⟩ r
        · by_cases h3 : c + 1 - lsf ≤ 3
          · rw [outputToFrame_record_linger c lsf v r f h3]
            simpa [traceEvents_push_cons] using
              ih ⟨c + 1, some lsf, v + (r.push_slice f).2⟩ (r.push_slice f).1
          · rw [outputToFrame_dead_zone c lsf v r f (by omega) (by omega)]
            simpa using ih ⟨c + 1, some lsf, v⟩ r
      · rw [outputToFrame_record_speech]
        simpa [traceEvents_push_cons] using
          ih ⟨c + 1, some (c + 1), v + (r.push_slice f).2⟩ (r.push_slice f).1

/-- Invariant: the sample-accounting checker accepts every producer trace,
provided the running window count `w` agrees with
`current_speech_samples` while a window is open and is `0` while closed. -/
theorem checkOps_outputToRun (inputs : List (Bool × List Int)) :
    ∀ (s : VadState) (r : Rb) (w : Nat),
      (s.last_speech_frame.isSome = true → w = s.current_speech_samples) →
      (s.last_speech_frame.isSome = false → w = 0) →
      checkOps s.last_speech_frame.isSome w (outputToRun s r inputs).2.2 =
        true := by
  induction inputs with
  | nil =>
    intro s r w _ _
    simp [outputToRun, checkOps]
  | cons bf rest ih =>
    obtain ⟨b, f⟩ := bf
    intro s r w hopen hclosed
    obtain ⟨c, ls, v⟩ := s
    simp only [outputToRun]
    rcases ls with _ | lsf
    · have hw : w = 0 := hclosed rfl
      subst hw
      cases b
      · rw [outputToFrame_idle_silence]
        simpa using ih ⟨c, none, v⟩ r 0 (fun h => Bool.noConfusion h)
          (fun _ => rfl)
      · rw [outputToFrame_idle_speech]
        simpa [checkOps] using
          ih ⟨0, some 0, (r.push_slice f).2⟩ (r.push_slice f).1
            ((r.push_slice f).2) (fun _ => rfl) (fun h => Bool.noConfusion h)
    · have hw : w = v := hopen rfl
      rw [hw]
      cases b
      · by_cases h8 : 8 ≤ c + 1 - lsf
        · rw [outputToFrame_end_frame c lsf v r f h8]
          simpa [checkOps] using ih ⟨c + 1, none, v⟩ r 0
            (fun h => Bool.noConfusion h) (fun _ => rfl)
        · by_cases h3 : c + 1 - lsf ≤ 3
          · rw [outputToFrame_record_linger c lsf v r f h3]
            simpa [checkOps] using
              ih ⟨c + 1, some lsf, v + (r.push_slice f).2⟩ (r.push_slice f).1
                (v + (r.push_slice f).2) (fun _ => rfl)
                (fun h => Bool.noConfusion h)
          · rw [outputToFrame_dead_zone c lsf v r f (by omega) (by omega)]
            simpa using ih ⟨c + 1, some lsf, v⟩ r v (fun _ => rfl)
              (fun h => Bool.noConfusion h)
      · rw [outputToFrame_record_speech]
        simpa [checkOps] using
          ih ⟨c + 1, some (c + 1), v + (r.push_slice f).2⟩ (r.push_slice f).1
            (v + (r.push_slice f).2) (fun _ => rfl)
            (fun h => Bool.noConfusion h)

/-! ## Claim C2: strict alternation of the emitted event stream -/

/-- Claim C2: for every sequence of classification results (and frames, and
every ring state), the event stream the producer emits strictly alternates:
starting from the initial (idle) endpointer state it is
`SpeechStart, SpeechEnd, SpeechStart, …` — never two consecutive
`SpeechStart` or `SpeechEnd` events, and every `SpeechEnd` is preceded by
its matching `SpeechStart`. -/
theorem c2_strict_alternation (inputs : List (Bool × List Int)) (r : Rb) :
    altFrom false (traceEvents (outputToRun vadInit r inputs).2.2) = true :=
  altFrom_outputToRun inputs vadInit r

/-! ## Claim C5: `SpeechEnd(n)` reports exactly the pushed samples -/

/-- Claim C5: over every run of the producer, every `SpeechEnd n` in the
producer trace carries exactly the number of samples actually delivered to
the transcription ring since the window's matching `SpeechStart`
(including the push immediately preceding that `SpeechStart`, and counting
a partial push at its delivered length, not the requested frame length);
since the trace lists actions in execution order, all those pushes appear
before the event — the push happens before the send. -/
theorem c5_speechend_matches_pushes (inputs : List (Bool × List Int))
    (r : Rb) :
    checkOps false 0 (outputToRun vadInit r inputs).2.2 = true :=
  checkOps_outputToRun inputs vadInit r 0 (fun h => Bool.noConfusion h)
    (fun _ => rfl)

/-! ### Simulation of the main.rs loop on speech frames by `headT` -/

/-- One speech-classified 480-sample frame advances the main.rs loop
exactly as the head automaton `headT` says: append when it fits, split
and reset when it overflows, panic when the accumulator is already full. -/
theorem micStep_speech_cases (s : MicState) (hp : s.panicked = false) :
    (s.head + VAD_FRAME ≤ ACCUMULATOR_LEN →
       (micStep s true frame480).panicked = false ∧
       (micStep s true frame480).head = s.head + VAD_FRAME) ∧
    (s.head < ACCUMULATOR_LEN → ACCUMULATOR_LEN < s.head + VAD_FRAME →
       (micStep s true frame480).panicked = false ∧
       (micStep s true frame480).head =
         HEAD_ZERO + (s.head + VAD_FRAME - ACCUMULATOR_LEN)) ∧
    (ACCUMULATOR_LEN ≤ s.head → (micStep s true frame480).panicked = true) := by
  have hA : ACCUMULATOR_LEN = 480000 := rfl
  have hV : VAD_FRAME = 480 := rfl
  refine ⟨?_, ?_, ?_⟩
  · intro hle
    simp only [micStep, hp, Bool.false_eq_true, if_false, appendPhase,
      Bool.true_or, if_true, frame480_length]
    rw [if_pos (by omega), if_neg (by omega)]
    exact ⟨by trivial, by simp; omega⟩
  · intro hlt hov
    simp only [micStep, hp, Bool.false_eq_true, if_false, appendPhase,
      Bool.true_or, if_true, frame480_length]
    rw [if_pos (by omega), if_pos (by omega)]
    simp only [micDispatch, List.length_drop, frame480_length]
    exact ⟨by trivial, by simp; omega⟩
  · intro hge
    simp only [micStep, hp, Bool.false_eq_true, if_false, appendPhase,
      Bool.true_or, if_true, frame480_length]
    rw [if_neg (by omega)]

/-- A panicked state absorbs the rest of the input. -/
theorem micRun_panicked (l : List (Bool × List Int)) :
    ∀ s : MicState, s.panicked = true → micRun s l = s := by
  induction l with
  | nil => intro s _; rfl
  | cons x rest ih =>
    intro s h
    obtain ⟨b, f⟩ := x
    show micRun (micStep s b f) rest = s
    rw [show micStep s b f = s from by simp [micStep, h]]
    exact ih s h

/-- Simulation: running `n` speech frames through the main.rs loop tracks
`headRunN` exactly — `some h2` means the loop is alive with write head
`h2`, `none` means the `panic!` branch has been executed. -/
theorem micRun_speech_headRunN (n : Nat) :
    ∀ s : MicState, s.panicked = false →
      (∀ h2, headRunN n s.head = some h2 →
         (micRun s (List.replicate n (true, frame480))).panicked = false ∧
         (micRun s (List.replicate n (true, frame480))).head = h2) ∧
      (headRunN n s.head = none →
         (micRun s (List.replicate n (true, frame480))).panicked = true) := by
  induction n with
  | zero =>
    intro s hp
    constructor
    · intro h2 hh
      simp only [headRunN, Option.some_inj] at hh
      subst hh
      exact ⟨hp, rfl⟩
    · intro hh
      simp [headRunN] at hh
  | succ n ih =>
    intro s hp
    have hstep := micStep_speech_cases s hp
    constructor
    · intro h2 hh
      simp only [headRunN] at hh
      by_cases hlt : s.head < ACCUMULATOR_LEN
      · by_cases hle : s.head + VAD_FRAME ≤ ACCUMULATOR_LEN
        · rw [show headT s.head = some (s.head + VAD_FRAME) from by
            simp [headT, hlt, hle]] at hh
          obtain ⟨hpan, hhead⟩ := hstep.1 hle
          rw [List.replicate_succ]
          exact (ih (micStep s true frame480) hpan).1 h2
            (by rw [hhead]; exact hh)
        · rw [show headT s.head =
              some (HEAD_ZERO + (s.head + VAD_FRAME - ACCUMULATOR_LEN)) from by
            simp [headT, hlt, hle]] at hh
          obtain ⟨hpan, hhead⟩ := hstep.2.1 hlt (by omega)
          rw [List.replicate_succ]
          exact (ih (micStep s true frame480) hpan).1 h2
            (by rw [hhead]; exact hh)
      · rw [show headT s.head = none from by simp [headT, hlt]] at hh
        exact absurd hh (by simp)
    · intro hh
      simp only [headRunN] at hh
      by_cases hlt : s.head < ACCUMULATOR_LEN
      · by_cases hle : s.head + VAD_FRAME ≤ ACCUMULATOR_LEN
        · rw [show headT s.head = some (s.head + VAD_FRAME) from by
            simp [headT, hlt, hle]] at hh
          obtain ⟨hpan, hhead⟩ := hstep.1 hle
          rw [List.replicate_succ]
          exact (ih (micStep s true frame480) hpan).2 (by rw [hhead]; exact hh)
        · rw [show headT s.head =
              some (HEAD_ZERO + (s.head + VAD_FRAME - ACCUMULATOR_LEN)) from by
            simp [headT, hlt, hle]] at hh
          obtain ⟨hpan, hhead⟩ := hstep.2.1 hlt (by omega)
          rw [List.replicate_succ]
          exact (ih (micStep s true frame480) hpan).2 (by rw [hhead]; exact hh)
      · have hpan := hstep.2.2 (by omega)
        rw [List.replicate_succ]
        show (micRun (micStep s true frame480)
          (List.replicate n (true, frame480))).panicked = true
        rw [micRun_panicked _ _ hpan]
        exact hpan

/-! ## Claim C1: the receive loop's unreachable panic — actually reachable -/

set_option maxRecDepth 100000 in
/-- Claim C1 fails on the code: 2931 consecutive 480-sample frames all
classified as speech drive the main.rs receive loop into its
`panic!("should not be reachable")` branch.  The head starts at
`HEAD_ZERO = 11200 ≡ 160 (mod 480)`; the first two overflows leave
leftovers of 160 then 320 samples, after which the head is `11520 ≡ 0
(mod 480)` and 976 further frames land the head at exactly
`ACCUMULATOR_LEN`; since the forced dispatch only fires when an append
strictly exceeds capacity (`max < partial.len()`), an exact fill does not
dispatch, and the next speech frame falls through `head < accumulator.len()`
to the panic. -/
theorem c1_panic_reached :
    (micRun micInit (List.replicate 2931 (true, frame480))).panicked = true :=
  (micRun_speech_headRunN 2931 micInit rfl).2 (by decide)

theorem traceEvents_replicate_push (j n : Nat) :
    traceEvents (List.replicate j (.push n)) = [] := by
  induction j with
  | zero => rfl
  | succ j ih => rw [List.replicate_succ, traceEvents_push_cons, ih]

/-! ## Claim C4: one utterance from k speech frames then ≥ 8 silence -/

set_option maxRecDepth 1000000 in
/-- Claim C4 counterexample: the claim says `SpeechEnd(n)` carries the
configured pre-roll length (700 ms = `WHISPER_PREPEND_SILENCE` = 11200
samples) plus the counted frames, but `Vad::output_to` accumulates only
the samples actually pushed for the counted frames: for `k = 1` speech
frame followed by 8 silence frames (ample ring capacity), the emitted
events are `SpeechStart, SpeechEnd 1920` — the four counted frames only —
and `1920 ≠ 11200 + 480·4`.  The pre-roll is prepended downstream by the
transcription stage (`Whisper.buf`) and is not part of `n`. -/
theorem c4_preroll_not_counted_cex :
    traceEvents (outputToRun vadInit ⟨1920, []⟩
        (List.replicate 1 (true, frame480) ++
         List.replicate 8 (false, frame480))).2.2 =
      [.speechStart, .speechEnd 1920] ∧
    (1920 : Nat) ≠ WHISPER_PREPEND_SILENCE + VAD_FRAME * (1 + 3) := by
  exact ⟨by decide, by decide⟩

/-- Claim C4 (amended): starting from the idle state, `k ≥ 1` speech
frames followed by `m ≥ 8` silence frames (with the transcription ring
able to hold the utterance) emit exactly one `SpeechStart` followed by one
`SpeechEnd n` with `n = VAD_FRAME * (k + 3)` — the `k` speech frames plus
the 3 linger frames counted by the linger rule; the configured pre-roll is
not included in `n` (it is prepended later by the transcription stage). -/
theorem c4_speech_then_silence (k m cap : Nat) (hk : 1 ≤ k) (hm : 8 ≤ m)
    (hcap : VAD_FRAME * (k + 3) ≤ cap) :
    traceEvents (outputToRun vadInit ⟨cap, []⟩
        (List.replicate k (true, frame480) ++
         List.replicate m (false, frame480))).2.2 =
      [.speechStart, .speechEnd (VAD_FRAME * (k + 3))] := by
  have hV : VAD_FRAME = 480 := rfl
  obtain ⟨k2, rfl⟩ : ∃ k2, k = k2 + 1 := ⟨k - 1, by omega⟩
  obtain ⟨m2, rfl⟩ : ∃ m2, m = 8 + m2 := ⟨m - 8, by omega⟩
  rw [hV] at hcap
  have hstart : outputToFrame vadInit ⟨cap, []⟩ true frame480 =
      (⟨0, some 0, VAD_FRAME⟩, ⟨cap, frame480⟩,
       [.push VAD_FRAME, .event .speechStart]) := by
    rw [show (vadInit : VadState) = ⟨0, none, 0⟩ from rfl,
      outputToFrame_idle_speech 0 0 ⟨cap, []⟩ frame480,
      push_slice_full ⟨cap, []⟩ frame480 (by simp [frame480_length, hV]; omega)]
    simp [frame480_length]
  rw [List.replicate_succ, List.cons_append,
    outputToRun_cons_eq _ _ _ _ _ _ _ _ hstart,
    outputToRun_append,
    outputToRun_speech_run k2 0 VAD_FRAME ⟨cap, frame480⟩
      (by simp [frame480_length, hV]; omega),
    List.replicate_add,
    outputToRun_append,
    outputToRun_silence8 (0 + k2) (VAD_FRAME + VAD_FRAME * k2)
      ⟨cap, frame480 ++ List.replicate (VAD_FRAME * k2) 0⟩
      (by simp [frame480_length, hV]; omega),
    outputToRun_idle m2 (0 + k2 + 8)
      (VAD_FRAME + VAD_FRAME * k2 + VAD_FRAME * 3)]
  rw [show VAD_FRAME + VAD_FRAME * k2 + VAD_FRAME * 3 =
    VAD_FRAME * (k2 + 1 + 3) from by rw [hV]; omega]
  simp only [traceEvents_append, traceEvents_replicate_push,
    traceEvents_push_cons, traceEvents_event_cons, traceEvents_nil,
    List.nil_append, List.append_nil, List.cons_append]

/-- Witness for amended C4 at `k = 1`, `m = 8`, ring capacity 1920. -/
theorem c4_speech_then_silence_witness :
    traceEvents (outputToRun vadInit ⟨1920, []⟩
        (List.replicate 1 (true, frame480) ++
         List.replicate 8 (false, frame480))).2.2 =
      [.speechStart, .speechEnd (VAD_FRAME * (1 + 3))] :=
  c4_speech_then_silence 1 8 1920 (by decide) (by decide) (by decide)

/-! ## Claim C9: the format normalizer on the mono, target-rate path -/

/-- Claim C9: for every input chunk from a 1-channel source with no
resampler instantiated, the normalizer stage of `audio_loop` is the
identity: the chunk it passes on is the input unchanged, and therefore the
samples handed to the VAD (`vad.input`) are exactly the external i16
conversion of the unchanged input — no downmix, no resampling, order and
count preserved. -/
theorem c9_normalizer_identity {α : Type} (stereoToMono : List α → List α)
    (conv : List α → List Int) (data : List α) :
    normalizeStage stereoToMono none 1 data = some data ∧
      vadInputSamples stereoToMono none conv 1 data = some (conv data) :=
  ⟨rfl, rfl⟩

/-! ## Claim C10: `Whisper::audio_buf` rejects `MAX_WHISPER_FRAME` -/

/-- Claim C10: `Whisper::audio_buf` panics (assertion failure, modelled as
`none`) for every `sample_count ≥ MAX_WHISPER_FRAME`, including equality,
since the assertion requires `sample_count < MAX_WHISPER_FRAME` strictly;
so an utterance of exactly the configured maximum length cannot be
registered through this interface. -/
theorem c10_audio_buf_asserts (w : WhisperM) (n : Nat)
    (h : MAX_WHISPER_FRAME ≤ n) : audio_buf w n = none := by
  unfold audio_buf
  rw [if_neg (by omega)]

/-- Witness for C10 at `sample_count = MAX_WHISPER_FRAME` exactly. -/
theorem c10_audio_buf_asserts_witness :
    audio_buf whisperInit MAX_WHISPER_FRAME = none :=
  c10_audio_buf_asserts whisperInit MAX_WHISPER_FRAME (Nat.le_refl _)

/-! ## Claim C7: sub-1-second utterances are discarded before the model -/

/-- Claim C7: for every registered utterance whose sample count is below
`SAMPLE_RATE - WHISPER_PREPEND_SILENCE` (so the buffer including the
pre-roll is shorter than one second), `Whisper::transcribe` returns `None`
with the engine never invoked (the second component `false`).  Since this
holds for every such state and the invoked flag is `true` on every other
path, the model is only ever run on utterances at or above the minimum. -/
theorem c7_short_utterance_skipped
    (engine : List Int → List (Option (List Char))) (w : WhisperM)
    (h : w.samples_in_buf < SAMPLE_RATE - WHISPER_PREPEND_SILENCE) :
    transcribe engine w = (none, false) := by
  unfold transcribe
  rw [if_pos h]

/-- Witness for C7: a 100-sample utterance is discarded without invoking
the engine. -/
theorem c7_short_utterance_skipped_witness :
    transcribe (fun _ => []) ⟨fun _ => 0, 100⟩ = (none, false) :=
  c7_short_utterance_skipped (fun _ => []) ⟨fun _ => 0, 100⟩ (by decide)

/-! ## Claim C8: non-empty engine text is emitted — except `" you"` -/

/-- Claim C8 counterexample: the claim says every non-empty single-segment
text returned by the engine is emitted, but the code's hallucination
filter (whisper.rs line 120) suppresses the non-empty text `" you"`:
with a sufficient utterance and the engine succeeding with the single
non-empty segment `" you"`, `transcribe` returns `None` even though the
engine ran. -/
theorem c8_you_filtered_cex :
    transcribe (fun _ => [some youText]) ⟨fun _ => 0, 4800⟩ = (none, true) ∧
      youText ≠ [] := by
  constructor
  · rfl
  · decide

/-- Claim C8 (amended): for every utterance meeting the minimum duration,
whenever the engine succeeds and returns non-empty text for the single
segment AND that text is not `" you"` up to ASCII case (the hallucination
filter), `Whisper::transcribe` returns that text. -/
theorem c8_nonempty_text_emitted
    (engine : List Int → List (Option (List Char))) (w : WhisperM)
    (t : List Char)
    (h1 : SAMPLE_RATE - WHISPER_PREPEND_SILENCE ≤ w.samples_in_buf)
    (h2 : engine ((List.range (WHISPER_PREPEND_SILENCE + w.samples_in_buf)).map
            w.buf) = [some t])
    (h3 : t ≠ [])
    (h4 : eq_ignore_ascii_case t youText = false) :
    transcribe engine w = (some t, true) := by
  unfold transcribe
  rw [if_neg (by omega)]
  simp only [h2]
  simp [h4]

/-- Witness for amended C8 with the engine returning `"hi"`. -/
theorem c8_nonempty_text_emitted_witness :
    transcribe (fun _ => [some [Char.ofNat 104, Char.ofNat 105]])
        ⟨fun _ => 0, 4800⟩ =
      (some [Char.ofNat 104, Char.ofNat 105], true) :=
  c8_nonempty_text_emitted _ _ _ (by decide) rfl (by decide) (by decide)

/-! ## Claim C3: the Listening-state transition of `Vad::output_to` -/

/-- Claim C3: for every frame processed while a speech window is open,
after incrementing the frame index (`cf = current_frame + 1`) and computing
`silence_run = cf - last_speech_frame`: if the frame is non-speech and
`silence_run ≥ 8`, the endpointer emits
`SpeechEnd(current_speech_samples)` and resets `last_speech_frame` to
`None`; otherwise no event is emitted, `last_speech_frame` becomes `cf`
exactly when the frame was speech, the frame is pushed to the transcription
ring and counted (at delivered length) exactly when the frame is speech or
`silence_run ≤ 3`, and a non-speech frame with `3 < silence_run < 8` is
discarded without touching the ring or the accumulated count. -/
theorem c3_listening_transition (s : VadState) (r : Rb) (b : Bool)
    (f : List Int) (lsf : Nat) (h : s.last_speech_frame = some lsf) :
    (b = false ∧ 8 ≤ s.current_frame + 1 - lsf →
       outputToFrame s r b f =
         (⟨s.current_frame + 1, none, s.current_speech_samples⟩, r,
          [.event (.speechEnd s.current_speech_samples)])) ∧
    (¬(b = false ∧ 8 ≤ s.current_frame + 1 - lsf) →
       traceEvents (outputToFrame s r b f).2.2 = [] ∧
       (outputToFrame s r b f).1.current_frame = s.current_frame + 1 ∧
       (outputToFrame s r b f).1.last_speech_frame =
         some (if b then s.current_frame + 1 else lsf) ∧
       (b = true ∨ s.current_frame + 1 - lsf ≤ 3 →
          (outputToFrame s r b f).2.1 = (r.push_slice f).1 ∧
          (outputToFrame s r b f).1.current_speech_samples =
            s.current_speech_samples + (r.push_slice f).2) ∧
       (b = false ∧ 3 < s.current_frame + 1 - lsf ∧
            s.current_frame + 1 - lsf < 8 →
          (outputToFrame s r b f).2.1 = r ∧
          (outputToFrame s r b f).1.current_speech_samples =
            s.current_speech_samples)) := by
  obtain ⟨cf0, ls0, css0⟩ := s
  simp only at h
  subst h
  by_cases hend : b = false ∧ 8 ≤ cf0 + 1 - lsf
  · obtain ⟨hb, hs⟩ := hend
    subst hb
    refine ⟨fun _ => ?_, fun hn => absurd ⟨rfl, hs⟩ hn⟩
    simp only [outputToFrame]
    split
    · rfl
    · next hcond => exact absurd ⟨by trivial, hs⟩ hcond
  · refine ⟨fun hx => absurd hx hend, fun _ => ?_⟩
    simp only [outputToFrame]
    rw [if_neg hend]
    by_cases hc : b = true ∨ cf0 + 1 - lsf ≤ 3
    · rw [if_pos hc]
      refine ⟨rfl, rfl, rfl, fun _ => ⟨rfl, rfl⟩, ?_⟩
      rintro ⟨hb, h3, _⟩
      subst hb
      rcases hc with hc | hc
      · exact absurd hc (by simp)
      · omega
    · rw [if_neg hc]
      exact ⟨rfl, rfl, rfl, fun hx => absurd hx hc, fun _ => ⟨rfl, rfl⟩⟩

/-- Witness for C3: a concrete open state (`last_speech_frame = some 0`)
with a non-speech frame at `silence_run = 1` emits no event (the frame is
a linger frame, not an utterance end). -/
theorem c3_listening_transition_witness :
    traceEvents (outputToFrame ⟨0, some 0, 480⟩ ⟨2000, []⟩ false
        frame480).2.2 = [] :=
  ((c3_listening_transition ⟨0, some 0, 480⟩ ⟨2000, []⟩ false frame480 0
      rfl).2 (by rintro ⟨-, h8⟩; exact absurd h8 (by decide))).1

/-! ## Claim C6: overflow split of the main.rs accumulator -/

/-- Claim C6: when appending a frame in the main.rs receive loop would
exceed the accumulator's capacity (`head < ACCUMULATOR_LEN <
head + part.length` and the append section is reached), exactly the
portion that fits (`ACCUMULATOR_LEN - head` samples) is written, a forced
dispatch fires with the buffer at exactly full capacity, the leftover tail
of the same frame is written just after the pre-roll of the freshly reset
(zeroed) buffer, the speech window stays open, the loop does not panic,
and the sample count is conserved across the split. -/
theorem c6_overflow_split (s : MicState) (predict : Bool) (part : List Int)
    (hp : s.panicked = false)
    (hap : appendPhase s predict = true)
    (h1 : s.head < ACCUMULATOR_LEN)
    (h2 : ACCUMULATOR_LEN < s.head + part.length) :
    (micStep s predict part).dispatched = s.dispatched ++ [ACCUMULATOR_LEN] ∧
    (micStep s predict part).head =
      HEAD_ZERO + (part.length - (ACCUMULATOR_LEN - s.head)) ∧
    (micStep s predict part).speech_segment = some 0 ∧
    (micStep s predict part).panicked = false ∧
    (ACCUMULATOR_LEN - s.head) + (part.length - (ACCUMULATOR_LEN - s.head)) =
      part.length ∧
    (∀ i, i < part.length - (ACCUMULATOR_LEN - s.head) →
       (micStep s predict part).accumulator (HEAD_ZERO + i) =
         (part.drop (ACCUMULATOR_LEN - s.head)).getD i 0) ∧
    (∀ i, i < HEAD_ZERO → (micStep s predict part).accumulator i = 0) ∧
    (∀ i, HEAD_ZERO + (part.length - (ACCUMULATOR_LEN - s.head)) ≤ i →
       (micStep s predict part).accumulator i = 0) := by
  have hov : s.head + part.length - ACCUMULATOR_LEN =
      part.length - (ACCUMULATOR_LEN - s.head) := by omega
  have hmx : part.length - (s.head + part.length - ACCUMULATOR_LEN) =
      ACCUMULATOR_LEN - s.head := by omega
  have hmxlt : part.length - (s.head + part.length - ACCUMULATOR_LEN) <
      part.length := by omega
  have hlen : s.head + (ACCUMULATOR_LEN - s.head) = ACCUMULATOR_LEN := by omega
  cases predict <;>
    (simp only [micStep, hp, Bool.false_eq_true, if_false, hap, if_true]
     rw [if_pos h1, if_pos hmxlt]
     simp only [micDispatch, List.length_drop, hmx]
     exact ⟨by rw [hlen], by trivial, by trivial, by trivial, by omega,
       (fun i hi => by
         simp only [writeSlice, List.length_drop, hmx, Nat.add_sub_cancel_left]
         rw [if_pos (by omega)]),
       (fun i hi => by
         simp only [writeSlice]
         rw [if_neg (by omega)]),
       (fun i hi => by
         simp only [writeSlice, List.length_drop, hmx]
         rw [if_neg (by omega)])⟩)

set_option maxRecDepth 4000 in
/-- Witness for C6: a state 160 samples short of capacity receiving a full
480-sample speech frame force-dispatches at exactly `ACCUMULATOR_LEN` and
lands the 320-sample leftover right after the pre-roll. -/
theorem c6_overflow_split_witness :
    (micStep ⟨fun _ => 0, 479840, some 0, 5, [], false⟩ true
        (List.replicate 480 1)).dispatched = [] ++ [ACCUMULATOR_LEN] ∧
    (micStep ⟨fun _ => 0, 479840, some 0, 5, [], false⟩ true
        (List.replicate 480 1)).head =
      HEAD_ZERO + ((List.replicate 480 (1 : Int)).length -
        (ACCUMULATOR_LEN - 479840)) ∧
    (micStep ⟨fun _ => 0, 479840, some 0, 5, [], false⟩ true
        (List.replicate 480 1)).speech_segment = some 0 := by
  have h := c6_overflow_split ⟨fun _ => 0, 479840, some 0, 5, [], false⟩ true
    (List.replicate 480 1) rfl rfl (by decide)
    (by rw [List.length_replicate]; decide)
  exact ⟨h.1, h.2.1, h.2.2.1⟩

end WhisperRT
